import Mathlib

/-!
Verification of the crypto price tracker core (btc_taskbar_monitor.pyw):
price formatting, settings persistence, selection application, the
websocket retry ladder, per-message decoding, and connection bookkeeping.
Prices are modelled as exact decimals (rationals); Python dictionaries are
modelled as association lists; the per-symbol websocket coroutine is
modelled as a function over the sequence of network events it observes.
-/

/-! ### Price formatting (connect_binance_websocket, lines 428-436) -/

/-- Decimal places chosen by the price-bucket ladder in the source:
`if new_price < 10: .4f elif < 100: .3f elif < 10000: .2f else: .1f`. -/
def decimalPlaces (price : ℚ) : Nat :=
  if price < 10 then 4
  else if price < 100 then 3
  else if price < 10000 then 2
  else 1

/-- Round `price * 10 ^ places` to the nearest integer, ties to even, as
Python's fixed-point float formatting does; computed on the numerator and
denominator so the kernel can evaluate it. -/
def scaledRoundHalfEven (price : ℚ) (places : Nat) : ℤ :=
  let N := price.num * ((10 ^ places : ℕ) : ℤ)
  let D := (price.den : ℤ)
  let q := N.ediv D
  let r := N.emod D
  if 2 * r < D then q
  else if D < 2 * r then q + 1
  else if q % 2 = 0 then q else q + 1

/-- The ASCII character for the decimal digit `d % 10`. -/
def digitChar (d : Nat) : Char := Char.ofNat (48 + d % 10)

/-- Exactly `k` decimal digits of `n`, least significant first
(leading zeros kept), as used for the fractional part of `:,.kf`. -/
def fixedRevDigits : Nat → Nat → List Nat
  | _, 0 => []
  | n, k + 1 => n % 10 :: fixedRevDigits (n / 10) k

/-- Fuel-driven digit extraction, least significant first. -/
def natRevDigitsAux : Nat → Nat → List Nat
  | 0, _ => []
  | _ + 1, 0 => []
  | fuel + 1, n + 1 => (n + 1) % 10 :: natRevDigitsAux fuel ((n + 1) / 10)

/-- Decimal digits of `n`, most significant first, with `0 ↦ [0]`. -/
def natDigits (n : Nat) : List Nat :=
  if n = 0 then [0] else (natRevDigitsAux n n).reverse

/-- Insert `,` separators every three digits, over a reversed digit list;
`i` counts digits already emitted. -/
def commaGroupRev : List Char → Nat → List Char
  | [], _ => []
  | [c], _ => [c]
  | c :: c2 :: rest, i =>
    if i % 3 = 2 then c :: ',' :: commaGroupRev (c2 :: rest) (i + 1)
    else c :: commaGroupRev (c2 :: rest) (i + 1)

/-- Group the integer-part digits with `,` separators, Python `:,` style. -/
def groupIntDigits (l : List Char) : List Char :=
  (commaGroupRev l.reverse 0).reverse

/-- Python's `f"{price:,.{places}f}"` for a nonnegative decimal: round to
`places` decimal digits (ties to even), comma-group the integer part, and
always print exactly `places` fractional digits. -/
def formatWithPlaces (price : ℚ) (places : Nat) : String :=
  let n := (scaledRoundHalfEven price places).toNat
  let intPart := n / 10 ^ places
  let fracPart := n % 10 ^ places
  let intChars := groupIntDigits ((natDigits intPart).map digitChar)
  let fracChars := ((fixedRevDigits fracPart places).reverse).map digitChar
  String.mk (intChars ++ '.' :: fracChars)

/-- The formatted price string produced in the websocket receive loop. -/
def format_price (price : ℚ) : String :=
  formatWithPlaces price (decimalPlaces price)

/-- Number of characters after the last `.` in a formatted string. -/
def fracDigitCount (s : String) : Nat :=
  ((s.data.reverse).takeWhile (fun c => c != '.')).length

/-! ### Symbol catalog and settings persistence (lines 17-99) -/

/-- The keys of `self.available_currencies`, in insertion order. -/
def availableCodes : List String := ["BTC", "ETH", "BNB", "TRX", "ASTER"]

/-- What `load_settings` can observe of the settings file: the file may be
missing, its contents may fail to parse (or raise while being processed),
or it parses to an object whose `selected_currencies` field is the given
optional list. -/
inductive SettingsContent
  | missing
  | unparsable
  | parsed (selectedCurrencies : Option (List String))
deriving DecidableEq, Repr

/-- `load_settings` (lines 50-83): read the file, validate the saved codes
against the catalog, fall back to `['BTC']` when the file is missing, an
exception occurs, or no saved code is valid, and keep at most the first
three valid codes. -/
def load_settings : SettingsContent → List String
  | SettingsContent.missing => ["BTC"]
  | SettingsContent.unparsable => ["BTC"]
  | SettingsContent.parsed sel =>
    let saved_currencies := sel.getD ["BTC"]
    let valid_currencies := saved_currencies.filter (fun c => decide (c ∈ availableCodes))
    if valid_currencies = [] then ["BTC"]
    else if valid_currencies.length > 3 then valid_currencies.take 3
    else valid_currencies

/-- `save_settings` (lines 85-99): write the current selection (with a
version tag) as the settings file's contents. -/
def save_settings (selected_currencies : List String) : SettingsContent :=
  SettingsContent.parsed (some selected_currencies)

/-! ### Monitor state and selection application (lines 339-380, 476-481) -/

/-- The monitor's mutable state relevant to connection management:
`websockets` maps a currency to its registered websocket's closed flag
(`false` = open), `reconnect_attempts` is the per-currency retry counter,
and `live_connections` records one entry per websocket thread whose
receive loop is still running. -/
structure MonitorState where
  selected_currencies : List String
  websockets : List (String × Bool)
  reconnect_attempts : List (String × Nat)
  settings_file : SettingsContent
  live_connections : List String
deriving DecidableEq, Repr

/-- Result of `apply_currency_selection`: the new state, the currencies
whose websocket was told to close, the currencies for which a websocket
thread was started, and whether the new selection was accepted. -/
structure ApplyResult where
  state : MonitorState
  stopped : List String
  started : List String
  accepted : Bool
deriving DecidableEq, Repr

/-- Dictionary read: first value bound to `key`, if any. -/
def alGet {α : Type} : List (String × α) → String → Option α
  | [], _ => none
  | (k, v) :: rest, key => if k = key then some v else alGet rest key

/-- Dictionary write: replace the binding of `key` in place, else append. -/
def alSet {α : Type} : List (String × α) → String → α → List (String × α)
  | [], key, value => [(key, value)]
  | (k, v) :: rest, key, value =>
    if k = key then (key, value) :: rest else (k, v) :: alSet rest key value

/-- The per-currency guard in `start_websocket_connections` (lines 368-375):
start a thread unless a websocket exists for the currency and is not closed
(the `except` path counts a failing `.closed` probe as closed). -/
def needs_start (websockets : List (String × Bool)) (currency : String) : Bool :=
  match alGet websockets currency with
  | none => true
  | some closed => closed

/-- The loop body of `start_websocket_connections` (lines 367-380): for each
selected currency that has no open registered websocket, reset its retry
counter to 0 and spawn a websocket thread; report the started currencies. -/
def start_ws_loop : List String → MonitorState → MonitorState × List String
  | [], st => (st, [])
  | currency :: rest, st =>
    if needs_start st.websockets currency then
      let st' : MonitorState :=
        { st with
          reconnect_attempts := alSet st.reconnect_attempts currency 0,
          live_connections := st.live_connections ++ [currency] }
      let r := start_ws_loop rest st'
      (r.1, currency :: r.2)
    else
      start_ws_loop rest st

/-- `start_websocket_connections` (lines 364-380). -/
def start_websocket_connections (st : MonitorState) : MonitorState × List String :=
  start_ws_loop st.selected_currencies st

/-- Effect of the scheduled `websocket.close()` calls: the named
websockets become closed. -/
def close_websockets (websockets : List (String × Bool)) (stopped : List String) :
    List (String × Bool) :=
  stopped.foldl (fun w c => alSet w c true) websockets

/-- `apply_currency_selection` (lines 339-362): if the new selection has
1 to 3 entries, close the websockets of deselected currencies that have a
registered websocket, install and persist the new selection, and run
`start_websocket_connections`; otherwise do nothing. -/
def apply_currency_selection (new_selection : List String) (st : MonitorState) :
    ApplyResult :=
  if 1 ≤ new_selection.length ∧ new_selection.length ≤ 3 then
    let stopped := st.selected_currencies.filter
      (fun currency =>
        !(decide (currency ∈ new_selection)) && (alGet st.websockets currency).isSome)
    let st1 : MonitorState :=
      { st with
        websockets := close_websockets st.websockets stopped,
        selected_currencies := new_selection,
        settings_file := save_settings new_selection }
    let r := start_websocket_connections st1
    { state := r.1, stopped := stopped, started := r.2, accepted := true }
  else
    { state := st, stopped := [], started := [], accepted := false }

/-- `reconnect` (lines 476-481): for every selected currency, reset its
retry counter and unconditionally spawn a new websocket thread. -/
def reconnect (st : MonitorState) : MonitorState :=
  st.selected_currencies.foldl
    (fun s currency =>
      { s with
        reconnect_attempts := alSet s.reconnect_attempts currency 0,
        live_connections := s.live_connections ++ [currency] })
    st

/-- A websocket thread's connection succeeding (lines 411-414): the
websocket is registered as open and the retry counter reset to 0. -/
def connect_success (currency : String) (st : MonitorState) : MonitorState :=
  { st with
    websockets := alSet st.websockets currency false,
    reconnect_attempts := alSet st.reconnect_attempts currency 0 }

/-- A fresh monitor state right after startup with `['BTC']` selected and
no websocket registered yet. -/
def exampleState : MonitorState :=
  { selected_currencies := ["BTC"]
    websockets := []
    reconnect_attempts := []
    settings_file := SettingsContent.missing
    live_connections := [] }

/-- A state in which BTC is selected but its websocket has died (closed,
retries exhausted), as left behind by the terminal branch of
`connect_binance_websocket`. -/
def failedBtcState : MonitorState :=
  { selected_currencies := ["BTC"]
    websockets := [("BTC", true)]
    reconnect_attempts := [("BTC", 5)]
    settings_file := SettingsContent.missing
    live_connections := [] }

/-- A steady state: every selected currency (just BTC) has an open
registered websocket and a live receive loop. -/
def steadyBtcState : MonitorState :=
  { selected_currencies := ["BTC"]
    websockets := [("BTC", false)]
    reconnect_attempts := [("BTC", 0)]
    settings_file := SettingsContent.parsed (some ["BTC"])
    live_connections := ["BTC"] }

/-! ### The retry ladder of connect_binance_websocket (lines 404-463) -/

/-- `self.max_reconnect_attempts` (line 44). -/
def max_reconnect_attempts : Nat := 5

/-- What one invocation of `connect_binance_websocket` can observe of the
network: the connection fails (before or at connect), or it succeeds and
later dies with a transport error, or it succeeds and the receive loop
ends without an exception (clean stop). -/
inductive AttemptOutcome
  | cleanExit
  | connectFail
  | streamFail
deriving DecidableEq, Repr

/-- The per-currency fields touched by the retry ladder. -/
structure ConnState where
  reconnect_attempts : Nat
  price : String
  running : Bool
  selected : Bool
deriving DecidableEq, Repr

/-- The retry ladder of `connect_binance_websocket` (lines 409-463), as a
function of the outcomes the coroutine observes. A successful connect
resets the counter to 0; an exception increments the counter and recurses
while `running and selected and attempts < max`, and otherwise sets the
published price to `"Error"` and returns, leaving the remaining network
events unconsumed (no further automatic retry). -/
def connect_binance_websocket :
    List AttemptOutcome → ConnState → ConnState × List AttemptOutcome
  | [], st => (st, [])
  | AttemptOutcome.cleanExit :: rest, st =>
    ({ st with reconnect_attempts := 0 }, rest)
  | AttemptOutcome.connectFail :: rest, st =>
    if st.running = true ∧ st.selected = true ∧
        st.reconnect_attempts < max_reconnect_attempts then
      connect_binance_websocket rest
        { st with reconnect_attempts := st.reconnect_attempts + 1 }
    else
      ({ st with price := "Error" }, rest)
  | AttemptOutcome.streamFail :: rest, st =>
    if st.running = true ∧ st.selected = true ∧ 0 < max_reconnect_attempts then
      connect_binance_websocket rest { st with reconnect_attempts := 0 + 1 }
    else
      ({ st with reconnect_attempts := 0, price := "Error" }, rest)

/-! ### Per-message decoding in the receive loop (lines 417-451) -/

/-- A JSON field value as `float(...)` sees it: a string that parses as a
number, a string that does not (`float` raises ValueError), a JSON number
or boolean (`float` succeeds), or `null` / an array / an object (`float`
raises TypeError). -/
inductive JsonValue
  | strNum (value : ℚ)
  | strText (raw : String)
  | number (value : ℚ)
  | null
  | arrayVal
  | objectVal
deriving DecidableEq, Repr

/-- An inbound websocket message: text `json.loads` rejects
(JSONDecodeError), valid JSON whose top level is not an object (so
`data['c']` raises TypeError), or a JSON object with optional fields `c`
(last price) and `P` (24h change percent). -/
inductive RawMessage
  | notJson (raw : String)
  | jsonNonObject
  | jsonObject (c : Option JsonValue) (P : Option JsonValue)
deriving DecidableEq, Repr

/-- Outcome of one `float(value)` call. -/
inductive FloatResult
  | ok (value : ℚ)
  | valueError
  | typeError
deriving DecidableEq, Repr

/-- `float(value)` on a JSON field value. -/
def float_of : JsonValue → FloatResult
  | JsonValue.strNum v => FloatResult.ok v
  | JsonValue.strText _ => FloatResult.valueError
  | JsonValue.number v => FloatResult.ok v
  | JsonValue.null => FloatResult.typeError
  | JsonValue.arrayVal => FloatResult.typeError
  | JsonValue.objectVal => FloatResult.typeError

/-- Outcome of decoding one message: both fields parsed; or an exception
the inner handler at line 449 catches (KeyError, ValueError,
JSONDecodeError); or an exception it does not catch (TypeError), which
escapes the receive loop. -/
inductive DecodeResult
  | ok (new_price : ℚ) (price_change : ℚ)
  | caught
  | uncaught
deriving DecidableEq, Repr

/-- `json.loads(message)` then `float(data['c'])` then `float(data['P'])`,
in the source's evaluation order: unparsable JSON raises JSONDecodeError
(caught); a non-object top level raises TypeError on `data['c']`
(uncaught); a missing field raises KeyError (caught); `float` of a
non-numeric string raises ValueError (caught); `float` of null, an array,
or an object raises TypeError (uncaught). -/
def decode_message : RawMessage → DecodeResult
  | RawMessage.notJson _ => DecodeResult.caught
  | RawMessage.jsonNonObject => DecodeResult.uncaught
  | RawMessage.jsonObject c P =>
    match c with
    | none => DecodeResult.caught
    | some cv =>
      match float_of cv with
      | FloatResult.typeError => DecodeResult.uncaught
      | FloatResult.valueError => DecodeResult.caught
      | FloatResult.ok new_price =>
        match P with
        | none => DecodeResult.caught
        | some pv =>
          match float_of pv with
          | FloatResult.typeError => DecodeResult.uncaught
          | FloatResult.valueError => DecodeResult.caught
          | FloatResult.ok price_change => DecodeResult.ok new_price price_change

/-- `self.currency_data[currency]` (lines 33-39): the published price
string and change figures for one currency. -/
structure CurrencyData where
  price : String
  price_change : ℚ
  change_24h : ℚ
deriving DecidableEq, Repr

/-- State threaded through the receive loop: the currency's published
data, plus counters for logged decode errors and published ticks
(scheduled GUI updates). -/
structure RecvState where
  data : CurrencyData
  errors_logged : Nat
  ticks_published : Nat
deriving DecidableEq, Repr

/-- The body of the receive loop for one message (lines 422-451): a caught
decode failure is logged and the message dropped; an uncaught one (the
returned flag) propagates, leaving the state untouched; a decoded tick
formats the price, stores both change fields from `P`, and schedules one
GUI update. -/
def process_message (message : RawMessage) (st : RecvState) : RecvState × Bool :=
  match decode_message message with
  | DecodeResult.ok new_price price_change =>
    ({ st with
        data :=
          { price := format_price new_price
            price_change := price_change
            change_24h := price_change }
        ticks_published := st.ticks_published + 1 }, false)
  | DecodeResult.caught =>
    ({ st with errors_logged := st.errors_logged + 1 }, false)
  | DecodeResult.uncaught => (st, true)

/-- The receive loop (lines 417-451): before each message it breaks when
the monitor stopped running or the currency was deselected; otherwise it
processes the message and continues with the rest, unless an uncaught
exception escaped (the returned flag), which aborts the loop and lands in
the outer handler at line 453, tearing the connection down. -/
def receive_loop (running selected : Bool) : List RawMessage → RecvState → RecvState × Bool
  | [], st => (st, false)
  | message :: rest, st =>
    if running && selected then
      let r := process_message message st
      if r.2 then (r.1, true)
      else receive_loop running selected rest r.1
    else (st, false)

/-! ### Helper lemmas -/

theorem fixedRevDigits_length (n k : Nat) : (fixedRevDigits n k).length = k := by
  induction k generalizing n with
  | zero => rfl
  | succ k ih => simp [fixedRevDigits, ih]

theorem digitChar_ne_dot (d : Nat) : (digitChar d != '.') = true := by
  unfold digitChar
  have h : d % 10 < 10 := Nat.mod_lt d (by omega)
  revert h
  generalize d % 10 = r
  intro h
  interval_cases r <;> decide

theorem takeWhile_append_of_forall (p : Char → Bool) (l : List Char) (d : Char)
    (r : List Char) (hl : ∀ c ∈ l, p c = true) (hd : p d = false) :
    (l ++ d :: r).takeWhile p = l := by
  induction l with
  | nil => simp [List.takeWhile_cons, hd]
  | cons c cs ih =>
    have hc : p c = true := hl c (List.mem_cons_self c cs)
    simp only [List.cons_append, List.takeWhile_cons, hc, if_true]
    rw [ih (fun x hx => hl x (List.mem_cons_of_mem c hx))]

theorem formatWithPlaces_fracDigitCount (price : ℚ) (places : Nat) :
    fracDigitCount (formatWithPlaces price places) = places := by
  simp only [formatWithPlaces, fracDigitCount]
  rw [List.reverse_append, List.reverse_cons, List.append_assoc, List.singleton_append]
  rw [takeWhile_append_of_forall _ _ _ _ ?_ (by decide)]
  · simp [fixedRevDigits_length]
  · intro c hc
    rw [List.mem_reverse, List.mem_map] at hc
    obtain ⟨d, -, rfl⟩ := hc
    exact digitChar_ne_dot d

theorem load_settings_mem_catalog (inp : SettingsContent) :
    ∀ c ∈ load_settings inp, c ∈ availableCodes := by
  cases inp with
  | missing => decide
  | unparsable => decide
  | parsed sel =>
    intro c hc
    simp only [load_settings] at hc
    split at hc
    · simp only [List.mem_singleton] at hc
      subst hc
      decide
    · split at hc
      · have h1 := List.take_subset 3 _ hc
        exact of_decide_eq_true (List.mem_filter.mp h1).2
      · exact of_decide_eq_true (List.mem_filter.mp hc).2

theorem load_settings_length (inp : SettingsContent) :
    1 ≤ (load_settings inp).length ∧ (load_settings inp).length ≤ 3 := by
  cases inp with
  | missing => decide
  | unparsable => decide
  | parsed sel =>
    simp only [load_settings]
    split
    · decide
    · split
      · rename_i hne hgt
        rw [List.length_take]
        omega
      · rename_i hne hgt
        have : 0 < ((sel.getD ["BTC"]).filter (fun c => decide (c ∈ availableCodes))).length :=
          List.length_pos.mpr hne
        omega

theorem load_settings_nodup (inp : SettingsContent)
    (h : ∀ l, inp = SettingsContent.parsed (some l) → l.Nodup) :
    (load_settings inp).Nodup := by
  cases inp with
  | missing => decide
  | unparsable => decide
  | parsed sel =>
    cases sel with
    | none => decide
    | some l =>
      have hl : l.Nodup := h l rfl
      simp only [load_settings, Option.getD_some]
      split
      · decide
      · split
        · exact List.Nodup.sublist (List.take_sublist 3 _) (hl.filter _)
        · exact hl.filter _

theorem alGet_alSet {α : Type} (l : List (String × α)) (key key2 : String) (value : α) :
    alGet (alSet l key value) key2 = if key = key2 then some value else alGet l key2 := by
  induction l with
  | nil => simp [alSet, alGet]
  | cons kv rest ih =>
    obtain ⟨k, v⟩ := kv
    by_cases hk : k = key
    · subst hk
      simp only [alSet, if_pos rfl]
      by_cases h2 : k = key2 <;> simp [alGet, h2]
    · simp only [alSet, if_neg hk]
      by_cases h2 : k = key2
      · subst h2
        have hne : ¬ key = k := fun he => hk he.symm
        simp [alGet, ih, hne]
      · simp [alGet, h2, ih]

theorem alGet_close_websockets_notMem (stopped : List String)
    (ws : List (String × Bool)) (c : String) (h : c ∉ stopped) :
    alGet (close_websockets ws stopped) c = alGet ws c := by
  induction stopped generalizing ws with
  | nil => rfl
  | cons s rest ih =>
    simp only [close_websockets, List.foldl_cons]
    have hrest : c ∉ rest := fun hm => h (List.mem_cons_of_mem s hm)
    have hs : ¬ s = c := fun he => h (he ▸ List.mem_cons_self s rest)
    rw [show (rest.foldl (fun w cc => alSet w cc true) (alSet ws s true))
          = close_websockets (alSet ws s true) rest from rfl]
    rw [ih (alSet ws s true) hrest, alGet_alSet, if_neg hs]

theorem start_ws_loop_state (sel : List String) (st : MonitorState) :
    (start_ws_loop sel st).1.websockets = st.websockets
  ∧ (start_ws_loop sel st).1.selected_currencies = st.selected_currencies
  ∧ (start_ws_loop sel st).1.settings_file = st.settings_file := by
  induction sel generalizing st with
  | nil => exact ⟨rfl, rfl, rfl⟩
  | cons c rest ih =>
    simp only [start_ws_loop]
    split
    · exact ih _
    · exact ih st

theorem start_ws_loop_started (sel : List String) (st : MonitorState) :
    (start_ws_loop sel st).2 = sel.filter (fun c => needs_start st.websockets c) := by
  induction sel generalizing st with
  | nil => rfl
  | cons c rest ih =>
    simp only [start_ws_loop, List.filter_cons]
    split
    · exact congrArg (c :: ·) (ih _)
    · exact ih st

theorem apply_currency_selection_reject (new_selection : List String) (st : MonitorState)
    (h : ¬(1 ≤ new_selection.length ∧ new_selection.length ≤ 3)) :
    apply_currency_selection new_selection st
      = { state := st, stopped := [], started := [], accepted := false } := by
  simp only [apply_currency_selection]
  rw [if_neg h]

theorem apply_currency_selection_accept (new_selection : List String) (st : MonitorState)
    (h : 1 ≤ new_selection.length ∧ new_selection.length ≤ 3) :
    (apply_currency_selection new_selection st).accepted = true
  ∧ (apply_currency_selection new_selection st).state.selected_currencies = new_selection
  ∧ (apply_currency_selection new_selection st).state.settings_file
      = save_settings new_selection := by
  simp only [apply_currency_selection]
  rw [if_pos h]
  exact ⟨rfl, (start_ws_loop_state _ _).2.1, (start_ws_loop_state _ _).2.2⟩

/-! ### Claim theorems -/

/-- C1: for every nonnegative price the formatted string carries exactly the
bucket table's number of decimal places (4 below 10, 3 below 100, 2 below
10000, 1 from 10000 up), a price exactly at a boundary uses the higher
bucket's lower-precision rule, the integer part is comma-grouped, and the
three concrete examples format as stated. -/
theorem C1_price_format (price : ℚ) (h : 0 ≤ price) :
    fracDigitCount (format_price price) = decimalPlaces price
  ∧ decimalPlaces 10 = 3 ∧ decimalPlaces 100 = 2 ∧ decimalPlaces 10000 = 1
  ∧ format_price (mkRat 514 10000) = "0.0514"
  ∧ format_price (mkRat 3456789 1000) = "3,456.79"
  ∧ format_price (mkRat 6789012 100) = "67,890.1" :=
  ⟨formatWithPlaces_fracDigitCount price (decimalPlaces price),
   by decide, by decide, by decide, by decide, by decide, by decide⟩

theorem C1_price_format_witness :
    (0 : ℚ) ≤ 0 ∧ fracDigitCount (format_price 0) = decimalPlaces 0 :=
  ⟨le_refl 0, (C1_price_format 0 (le_refl 0)).1⟩

/-- C2: the retry counter never exceeds `max_reconnect_attempts` (5); once
the counter sits at the limit, a further transport failure is terminal: the
published price becomes `"Error"` and the remaining network events are left
unconsumed, i.e. no further automatic retry happens until an explicit
start resets the counter. -/
theorem C2_retry_cap (outcomes : List AttemptOutcome) (st : ConnState)
    (h : st.reconnect_attempts ≤ max_reconnect_attempts) :
    (connect_binance_websocket outcomes st).1.reconnect_attempts ≤ max_reconnect_attempts
  ∧ (st.reconnect_attempts = max_reconnect_attempts →
      ∀ rest, connect_binance_websocket (AttemptOutcome.connectFail :: rest) st
        = ({ st with price := "Error" }, rest)) := by
  constructor
  · induction outcomes generalizing st with
    | nil => simpa [connect_binance_websocket] using h
    | cons out rest ih =>
      cases out with
      | cleanExit =>
        simp only [connect_binance_websocket]
        exact Nat.zero_le _
      | connectFail =>
        simp only [connect_binance_websocket]
        split_ifs with hc
        · obtain ⟨-, -, hlt⟩ := hc
          refine ih _ ?_
          show st.reconnect_attempts + 1 ≤ max_reconnect_attempts
          omega
        · simpa using h
      | streamFail =>
        simp only [connect_binance_websocket]
        split_ifs with hc
        · refine ih _ ?_
          show 0 + 1 ≤ max_reconnect_attempts
          decide
        · exact Nat.zero_le _
  · intro hmax rest
    simp only [connect_binance_websocket]
    rw [if_neg]
    rintro ⟨-, -, hlt⟩
    rw [hmax] at hlt
    exact absurd hlt (lt_irrefl _)

theorem C2_retry_cap_witness :
    (⟨5, "Loading...", true, true⟩ : ConnState).reconnect_attempts ≤ max_reconnect_attempts
  ∧ (⟨5, "Loading...", true, true⟩ : ConnState).reconnect_attempts = max_reconnect_attempts
  ∧ connect_binance_websocket [AttemptOutcome.connectFail] ⟨5, "Loading...", true, true⟩
      = (⟨5, "Error", true, true⟩, []) :=
  ⟨by decide, by decide,
   (C2_retry_cap [AttemptOutcome.connectFail] ⟨5, "Loading...", true, true⟩ (by decide)).2
     rfl []⟩

/-- C3 counterexample: with BTC selected but its websocket closed (a failed
connection), switching the selection to `["BTC", "ETH"]` issues a start
call for BTC even though BTC is in the intersection of old and new, so the
claim that intersection symbols receive no calls is false on the code. -/
theorem C3_counterexample :
    "BTC" ∈ failedBtcState.selected_currencies
  ∧ "BTC" ∈ (["BTC", "ETH"] : List String)
  ∧ "BTC" ∈ (apply_currency_selection ["BTC", "ETH"] failedBtcState).started := by
  decide

/-- C3 (amended): provided every old-selected symbol has an open registered
websocket and no newly selected symbol outside the old selection has one,
applying a valid selection change stops exactly old minus new, starts
exactly new minus old, and issues no stop or start call for any symbol in
the intersection. -/
theorem C3_reconcile_steady (old new_selection : List String) (st : MonitorState)
    (hsel : st.selected_currencies = old)
    (hopen : ∀ c ∈ old, alGet st.websockets c = some false)
    (hother : ∀ c ∈ new_selection, c ∉ old →
        alGet st.websockets c = none ∨ alGet st.websockets c = some true)
    (hlen : 1 ≤ new_selection.length ∧ new_selection.length ≤ 3) :
    (apply_currency_selection new_selection st).stopped
        = old.filter (fun c => !(decide (c ∈ new_selection)))
  ∧ (apply_currency_selection new_selection st).started
        = new_selection.filter (fun c => !(decide (c ∈ old)))
  ∧ (∀ c, c ∈ old → c ∈ new_selection →
      c ∉ (apply_currency_selection new_selection st).stopped
    ∧ c ∉ (apply_currency_selection new_selection st).started) := by
  have hstop : (apply_currency_selection new_selection st).stopped
      = old.filter (fun c => !(decide (c ∈ new_selection))) := by
    simp only [apply_currency_selection]
    rw [if_pos hlen]
    dsimp only
    rw [hsel]
    apply List.filter_congr
    intro c hc
    rw [hopen c hc]
    simp
  have hsub : ∀ c, c ∈ st.selected_currencies.filter
      (fun currency =>
        !(decide (currency ∈ new_selection)) && (alGet st.websockets currency).isSome) →
      c ∈ old ∧ c ∉ new_selection := by
    intro c hc
    have h1 := List.mem_filter.mp hc
    refine ⟨hsel ▸ h1.1, ?_⟩
    intro hmem
    have h2 := h1.2
    simp [hmem] at h2
  have hws1 : ∀ c ∈ new_selection,
      needs_start (close_websockets st.websockets
        (st.selected_currencies.filter
          (fun currency =>
            !(decide (currency ∈ new_selection)) && (alGet st.websockets currency).isSome))) c
      = !(decide (c ∈ old)) := by
    intro c hc
    have hnot : c ∉ st.selected_currencies.filter
        (fun currency =>
          !(decide (currency ∈ new_selection)) && (alGet st.websockets currency).isSome) := by
      intro hmem
      exact (hsub c hmem).2 hc
    rw [show needs_start (close_websockets st.websockets _) c
        = needs_start st.websockets c from by
      unfold needs_start
      rw [alGet_close_websockets_notMem _ _ _ hnot]]
    by_cases hco : c ∈ old
    · unfold needs_start
      rw [hopen c hco]
      simp [hco]
    · rcases hother c hc hco with hn | hn <;>
        · unfold needs_start
          rw [hn]
          simp [hco]
  have hstart : (apply_currency_selection new_selection st).started
      = new_selection.filter (fun c => !(decide (c ∈ old))) := by
    simp only [apply_currency_selection]
    rw [if_pos hlen]
    dsimp only
    simp only [start_websocket_connections]
    rw [start_ws_loop_started]
    apply List.filter_congr
    intro c hc
    exact hws1 c hc
  refine ⟨hstop, hstart, ?_⟩
  intro c hco hcn
  constructor
  · rw [hstop]
    intro hmem
    have h2 := (List.mem_filter.mp hmem).2
    simp [hcn] at h2
  · rw [hstart]
    intro hmem
    have h2 := (List.mem_filter.mp hmem).2
    simp [hco] at h2

theorem C3_reconcile_steady_witness :
    steadyBtcState.selected_currencies = ["BTC"]
  ∧ (∀ c ∈ (["BTC"] : List String), alGet steadyBtcState.websockets c = some false)
  ∧ (apply_currency_selection ["BTC", "ETH"] steadyBtcState).stopped = []
  ∧ (apply_currency_selection ["BTC", "ETH"] steadyBtcState).started = ["ETH"] := by
  have h := C3_reconcile_steady ["BTC"] ["BTC", "ETH"] steadyBtcState rfl
    (by decide) (by decide) (by decide)
  refine ⟨rfl, by decide, ?_, ?_⟩
  · rw [h.1]
    decide
  · rw [h.2.1]
    decide

/-- C4: the load operation is total; a missing file, unparsable content, or
content whose catalog-valid codes form an empty list yields the default
`["BTC"]`, and every returned code is a catalog member. -/
theorem C4_load_never_raises (inp : SettingsContent) :
    (inp = SettingsContent.missing → load_settings inp = ["BTC"])
  ∧ (inp = SettingsContent.unparsable → load_settings inp = ["BTC"])
  ∧ (∀ sel, inp = SettingsContent.parsed sel →
      (sel.getD ["BTC"]).filter (fun c => decide (c ∈ availableCodes)) = [] →
      load_settings inp = ["BTC"])
  ∧ (∀ c ∈ load_settings inp, c ∈ availableCodes) := by
  refine ⟨?_, ?_, ?_, load_settings_mem_catalog inp⟩
  · rintro rfl; rfl
  · rintro rfl; rfl
  · rintro sel rfl hempty
    simp only [load_settings]
    rw [if_pos hempty]

theorem C4_load_never_raises_witness :
    ((some ([] : List String)).getD ["BTC"]).filter (fun c => decide (c ∈ availableCodes)) = []
  ∧ load_settings (SettingsContent.parsed (some [])) = ["BTC"]
  ∧ ∀ c ∈ load_settings (SettingsContent.parsed (some [])), c ∈ availableCodes := by
  refine ⟨by decide, ?_, (C4_load_never_raises (SettingsContent.parsed (some []))).2.2.2⟩
  exact (C4_load_never_raises (SettingsContent.parsed (some []))).2.2.1 (some []) rfl
    (by decide)

/-- C6 counterexample: a persisted file listing `["BTC", "BTC"]` loads as
`["BTC", "BTC"]`, a selection with duplicate codes, so the no-duplicates
part of the claimed invariant is false on the code. -/
theorem C6_counterexample :
    load_settings (SettingsContent.parsed (some ["BTC", "BTC"])) = ["BTC", "BTC"]
  ∧ ¬ (load_settings (SettingsContent.parsed (some ["BTC", "BTC"]))).Nodup := by
  decide

/-- C6 (amended): every selection produced by load has length 1 to 3 and
only catalog codes, and is duplicate-free whenever the persisted list is;
every selection produced by an accepted apply of a UI-derived candidate
(a filter of the catalog list) has length 1 to 3, only catalog codes, and
no duplicates. -/
theorem C6_selection_invariant (inp : SettingsContent) (pred : String → Bool)
    (st : MonitorState) :
    (1 ≤ (load_settings inp).length ∧ (load_settings inp).length ≤ 3)
  ∧ (∀ c ∈ load_settings inp, c ∈ availableCodes)
  ∧ ((∀ l, inp = SettingsContent.parsed (some l) → l.Nodup) → (load_settings inp).Nodup)
  ∧ ((apply_currency_selection (availableCodes.filter pred) st).accepted = true →
        (1 ≤ (apply_currency_selection (availableCodes.filter pred)
                st).state.selected_currencies.length
        ∧ (apply_currency_selection (availableCodes.filter pred)
                st).state.selected_currencies.length ≤ 3)
      ∧ (∀ c ∈ (apply_currency_selection (availableCodes.filter pred)
                  st).state.selected_currencies, c ∈ availableCodes)
      ∧ (apply_currency_selection (availableCodes.filter pred)
            st).state.selected_currencies.Nodup) := by
  refine ⟨load_settings_length inp, load_settings_mem_catalog inp,
    load_settings_nodup inp, ?_⟩
  intro hacc
  by_cases hlen : 1 ≤ (availableCodes.filter pred).length
      ∧ (availableCodes.filter pred).length ≤ 3
  · rw [(apply_currency_selection_accept _ st hlen).2.1]
    refine ⟨hlen, ?_, List.Nodup.filter pred (by decide)⟩
    intro c hc
    exact List.mem_of_mem_filter hc
  · rw [apply_currency_selection_reject _ _ hlen] at hacc
    simp at hacc

theorem C6_selection_invariant_witness :
    (∀ l, SettingsContent.parsed (some ["BTC", "ETH"])
        = SettingsContent.parsed (some l) → l.Nodup)
  ∧ (load_settings (SettingsContent.parsed (some ["BTC", "ETH"]))).Nodup
  ∧ (apply_currency_selection (availableCodes.filter (fun c => c == "BTC"))
        exampleState).accepted = true
  ∧ (apply_currency_selection (availableCodes.filter (fun c => c == "BTC"))
        exampleState).state.selected_currencies.Nodup := by
  have hinj : ∀ l, SettingsContent.parsed (some ["BTC", "ETH"])
      = SettingsContent.parsed (some l) → l.Nodup := by
    intro l h
    injection h with h1
    injection h1 with h2
    subst h2
    decide
  refine ⟨hinj, ?_, by decide, ?_⟩
  · exact (C6_selection_invariant (SettingsContent.parsed (some ["BTC", "ETH"]))
      (fun c => c == "BTC") exampleState).2.2.1 hinj
  · exact ((C6_selection_invariant (SettingsContent.parsed (some ["BTC", "ETH"]))
      (fun c => c == "BTC") exampleState).2.2.2 (by decide)).2.2

/-- C7: persisting a valid selection (length 1 to 3, all codes in the
catalog, no duplicates) and reloading it returns the same selection. -/
theorem C7_save_load_roundtrip (sel : List String) (h1 : 1 ≤ sel.length)
    (h2 : sel.length ≤ 3) (h3 : ∀ c ∈ sel, c ∈ availableCodes) (h4 : sel.Nodup) :
    load_settings (save_settings sel) = sel := by
  have hfilter : sel.filter (fun c => decide (c ∈ availableCodes)) = sel := by
    rw [List.filter_eq_self]
    intro a ha
    exact decide_eq_true (h3 a ha)
  simp only [save_settings, load_settings, Option.getD_some]
  rw [hfilter, if_neg (List.ne_nil_of_length_pos (by omega)), if_neg (by omega)]

theorem C7_save_load_roundtrip_witness :
    1 ≤ (["ETH", "BNB"] : List String).length
  ∧ (["ETH", "BNB"] : List String).length ≤ 3
  ∧ (∀ c ∈ (["ETH", "BNB"] : List String), c ∈ availableCodes)
  ∧ (["ETH", "BNB"] : List String).Nodup
  ∧ load_settings (save_settings ["ETH", "BNB"]) = ["ETH", "BNB"] :=
  ⟨by decide, by decide, by decide, by decide,
   C7_save_load_roundtrip ["ETH", "BNB"] (by decide) (by decide) (by decide) (by decide)⟩

/-- C8 counterexample: two messages inside the claim's own scope tear the
connection down instead of being dropped: a JSON object whose `c` is
`null` (a non-numeric value in `c` — `float(None)` raises TypeError) and a
non-object JSON payload (field `c` missing — subscripting raises
TypeError); both escape the inner handler at line 449, abort the receive
loop, and land in the outer handler at line 453. -/
theorem C8_counterexample :
    decode_message (RawMessage.jsonObject (some JsonValue.null)
        (some (JsonValue.strNum (mkRat 3 2)))) = DecodeResult.uncaught
  ∧ receive_loop true true
      [RawMessage.jsonObject (some JsonValue.null) (some (JsonValue.strNum (mkRat 3 2)))]
      ⟨⟨"Loading...", 0, 0⟩, 0, 0⟩
      = (⟨⟨"Loading...", 0, 0⟩, 0, 0⟩, true)
  ∧ decode_message RawMessage.jsonNonObject = DecodeResult.uncaught := by
  decide

/-- C8 (amended): a decode failure the inner handler catches — unparsable
JSON, a JSON object missing `c` or `P`, or a non-numeric string value in
`c` or `P` — is dropped with the error recorded, leaves the stored data
and tick count unchanged, and the receive loop continues with the
remaining messages; but a decode failure raising TypeError — a non-object
JSON payload, or a null/array/object value in `c` or `P` — escapes the
inner handler with the stored data unchanged and aborts the receive loop,
tearing the connection down through the outer handler. -/
theorem C8_decode_failure (message : RawMessage) (st : RecvState)
    (rest : List RawMessage) :
    (decode_message message = DecodeResult.caught →
        process_message message st
          = ({ st with errors_logged := st.errors_logged + 1 }, false)
      ∧ receive_loop true true (message :: rest) st
          = receive_loop true true rest { st with errors_logged := st.errors_logged + 1 })
  ∧ (decode_message message = DecodeResult.uncaught →
        process_message message st = (st, true)
      ∧ receive_loop true true (message :: rest) st = (st, true)) := by
  constructor
  · intro h
    refine ⟨by simp [process_message, h], ?_⟩
    simp [receive_loop, process_message, h]
  · intro h
    refine ⟨by simp [process_message, h], ?_⟩
    simp [receive_loop, process_message, h]

theorem C8_decode_failure_witness :
    decode_message (RawMessage.jsonObject none (some (JsonValue.number 5)))
      = DecodeResult.caught
  ∧ process_message (RawMessage.jsonObject none (some (JsonValue.number 5)))
        ⟨⟨"Loading...", 0, 0⟩, 0, 0⟩
      = (⟨⟨"Loading...", 0, 0⟩, 1, 0⟩, false) := by
  refine ⟨by decide, ?_⟩
  exact ((C8_decode_failure (RawMessage.jsonObject none (some (JsonValue.number 5)))
    ⟨⟨"Loading...", 0, 0⟩, 0, 0⟩ []).1 (by decide)).1

/-- C9: evaluated at the failing input — BTC selected and streaming through
one live connection, then a manual reconnect — the monitor is left with two
live connections for BTC, contradicting the claimed one-connection-per-
symbol invariant (the code's `reconnect` neither closes the old websocket
nor checks for a live connection before spawning a new thread). -/
theorem C9_reconnect_duplicate_connections :
    ((reconnect (connect_success "BTC"
        (start_websocket_connections exampleState).1)).live_connections.count "BTC" = 2)
  ∧ ¬ ((reconnect (connect_success "BTC"
        (start_websocket_connections exampleState).1)).live_connections.count "BTC" ≤ 1) := by
  decide

/-- C10: when the persisted list holds more than three catalog-valid codes,
load returns exactly the first three valid codes in persisted order rather
than falling back to the default. -/
theorem C10_load_truncates (sel : List String)
    (h : 3 < (sel.filter (fun c => decide (c ∈ availableCodes))).length) :
    load_settings (SettingsContent.parsed (some sel))
      = (sel.filter (fun c => decide (c ∈ availableCodes))).take 3
  ∧ (load_settings (SettingsContent.parsed (some sel))).length = 3 := by
  have hne : sel.filter (fun c => decide (c ∈ availableCodes)) ≠ [] := by
    intro he
    rw [he] at h
    simp at h
  have heq : load_settings (SettingsContent.parsed (some sel))
      = (sel.filter (fun c => decide (c ∈ availableCodes))).take 3 := by
    simp only [load_settings, Option.getD_some]
    rw [if_neg hne, if_pos h]
  refine ⟨heq, ?_⟩
  rw [heq, List.length_take]
  omega

theorem C10_load_truncates_witness :
    3 < ((["BTC", "ETH", "BNB", "TRX"] : List String).filter
          (fun c => decide (c ∈ availableCodes))).length
  ∧ load_settings (SettingsContent.parsed (some ["BTC", "ETH", "BNB", "TRX"]))
      = ["BTC", "ETH", "BNB"] := by
  refine ⟨by decide, ?_⟩
  rw [(C10_load_truncates ["BTC", "ETH", "BNB", "TRX"] (by decide)).1]
  decide
